import Mathlib

/-!
Verification of the gofetch resilience core: the retry/backoff manager
(RetryManager, models.RetryOptions) and the per-endpoint circuit breaker
(infrastructure.CircuitBreaker).

Durations are modelled as Int (nanoseconds, the content of Go time.Duration),
timestamps as Int, and a call to time.Now is modelled by passing the current
time explicitly. The random draw of rand.Float64 (a value in [0,1)) is passed
explicitly as a rational parameter. Floating-point products by powers of two
and by rational fractions are modelled exactly over ℚ, with the final
time.Duration conversion as truncation toward zero (floor on non-negative
values), matching the Go code on the representable range.
-/

namespace GoFetch

/-- BackoffStrategy is a string in Go; the three documented values follow. -/
def BackoffExponential : String := "exponential"

/-- Linear strategy name. -/
def BackoffLinear : String := "linear"

/-- Fixed strategy name. -/
def BackoffFixed : String := "fixed"

/-- RetryOptions, from domain/models/retry.go (the fields the resilience core reads). -/
structure RetryOptions where
  MaxRetries : Int
  InitialDelay : Int
  MaxDelay : Int
  Backoff : String
  Jitter : Bool
  JitterFraction : ℚ
  RetryOnStatusCodes : List Int
deriving Repr, DecidableEq

/-- ShouldRetryStatus, from domain/models/retry.go: 5xx always retries, then the
configured extra codes are scanned. -/
def ShouldRetryStatus (r : RetryOptions) (statusCode : Int) : Bool :=
  if 500 ≤ statusCode ∧ statusCode < 600 then true
  else if statusCode ∈ r.RetryOnStatusCodes then true
  else false

/-- ShouldRetry, from RetryManager: stop at MaxRetries, always retry transport
errors, otherwise consult the status retry set. The transport error is
modelled by the Bool err (true when err was non-nil). -/
def ShouldRetry (opts : RetryOptions) (attempt statusCode : Int) (err : Bool) : Bool :=
  if opts.MaxRetries ≤ attempt then false
  else if err then true
  else ShouldRetryStatus opts statusCode

/-- calculateExponentialBackoff: initialDelay * 2^attempt (exact over Int; the
Go float64 product by a power of two is exact on the representable range). -/
def calculateExponentialBackoff (opts : RetryOptions) (attempt : Nat) : Int :=
  opts.InitialDelay * 2 ^ attempt

/-- calculateLinearBackoff: initialDelay * (attempt + 1). -/
def calculateLinearBackoff (opts : RetryOptions) (attempt : Nat) : Int :=
  opts.InitialDelay * ((attempt : Int) + 1)

/-- jitterFraction normalisation inside applyJitter: non-positive becomes the
default 0.3, values above 1 are clamped to 1. -/
def jitterFractionEffective (jf : ℚ) : ℚ :=
  if jf ≤ 0 then 3 / 10
  else if 1 < jf then 1
  else jf

/-- applyJitter, from RetryManager: draw u in [0,1), set
randomJitter = u * 2 * (delay * fraction) - (delay * fraction), add it to the
delay, clamp at zero, and convert back to a whole-nanosecond Duration
(truncation toward zero). -/
def applyJitter (opts : RetryOptions) (delay : Int) (u : ℚ) : Int :=
  let jitterFraction := jitterFractionEffective opts.JitterFraction
  let jitterRange : ℚ := (delay : ℚ) * jitterFraction
  let randomJitter : ℚ := u * 2 * jitterRange - jitterRange
  let newDelay : ℚ := (delay : ℚ) + randomJitter
  if newDelay < 0 then 0 else ⌊newDelay⌋

/-- CalculateDelay, from RetryManager: pick the strategy (unknown strategy
strings fall through to exponential, as in the Go switch default), cap at
MaxDelay, then apply jitter when enabled. -/
def CalculateDelay (opts : RetryOptions) (attempt : Nat) (u : ℚ) : Int :=
  let delay :=
    if opts.Backoff = BackoffExponential then calculateExponentialBackoff opts attempt
    else if opts.Backoff = BackoffLinear then calculateLinearBackoff opts attempt
    else if opts.Backoff = BackoffFixed then opts.InitialDelay
    else calculateExponentialBackoff opts attempt
  let delay := if opts.MaxDelay < delay then opts.MaxDelay else delay
  if opts.Jitter then applyJitter opts delay u else delay

/-- capToMin rewrites the MaxDelay cap branch as a min. -/
lemma capToMin (m x : Int) : (if m < x then m else x) = min x m := by
  rcases le_or_lt x m with h | h
  · rw [if_neg (not_lt.mpr h), min_eq_left h]
  · rw [if_pos h, min_eq_right h.le]

/-- linearNeExponential separates the strategy name strings. -/
lemma linearNeExponential : BackoffLinear ≠ BackoffExponential := by decide

/-- fixedNeExponential separates the strategy name strings. -/
lemma fixedNeExponential : BackoffFixed ≠ BackoffExponential := by decide

/-- fixedNeLinear separates the strategy name strings. -/
lemma fixedNeLinear : BackoffFixed ≠ BackoffLinear := by decide

/-- C2: with jitter disabled, CalculateDelay returns the strategy value clamped
to MaxDelay: exponential gives d * 2^n, linear gives d * (n+1), fixed gives d,
each replaced by MaxDelay when it exceeds it; and when jitter is enabled the
cap is applied before the jitter (the jittered value is the jitter of the
capped no-jitter value). -/
theorem C2_calculateDelay_clamped (opts : RetryOptions) (n : Nat) (u : ℚ) :
    (opts.Jitter = false →
      (opts.Backoff = BackoffExponential →
        CalculateDelay opts n u = min (opts.InitialDelay * 2 ^ n) opts.MaxDelay) ∧
      (opts.Backoff = BackoffLinear →
        CalculateDelay opts n u = min (opts.InitialDelay * ((n : Int) + 1)) opts.MaxDelay) ∧
      (opts.Backoff = BackoffFixed →
        CalculateDelay opts n u = min opts.InitialDelay opts.MaxDelay)) ∧
    (opts.Jitter = true →
      CalculateDelay opts n u =
        applyJitter opts (CalculateDelay { opts with Jitter := false } n u) u) := by
  constructor
  · intro hJ
    refine ⟨?_, ?_, ?_⟩
    · intro hB
      simp [CalculateDelay, hB, hJ, calculateExponentialBackoff, capToMin]
    · intro hB
      simp [CalculateDelay, hB, hJ, calculateLinearBackoff, linearNeExponential, capToMin]
    · intro hB
      simp [CalculateDelay, hB, hJ, fixedNeExponential, fixedNeLinear, capToMin]
  · intro hJ
    simp [CalculateDelay, hJ, calculateExponentialBackoff, calculateLinearBackoff]

/-- Witness for C2 at a concrete configuration: exponential backoff,
d = 100, n = 3, MaxDelay = 500 gives min (100 * 8) 500 = 500. -/
theorem C2_calculateDelay_clamped_witness :
    CalculateDelay
      { MaxRetries := 3, InitialDelay := 100, MaxDelay := 500,
        Backoff := BackoffExponential, Jitter := false, JitterFraction := 3 / 10,
        RetryOnStatusCodes := [] } 3 0 = min (100 * 2 ^ 3) 500 :=
  ((C2_calculateDelay_clamped
      { MaxRetries := 3, InitialDelay := 100, MaxDelay := 500,
        Backoff := BackoffExponential, Jitter := false, JitterFraction := 3 / 10,
        RetryOnStatusCodes := [] } 3 0).1 rfl).1 rfl

/-- C5: ShouldRetry is true exactly when the attempt index is below MaxRetries
and either a transport error occurred or the status code is in the retry set
(all of [500, 600) plus the configured additional codes). -/
theorem C5_shouldRetry_iff (opts : RetryOptions) (attempt statusCode : Int) (err : Bool) :
    ShouldRetry opts attempt statusCode err = true ↔
      attempt < opts.MaxRetries ∧
        (err = true ∨ (500 ≤ statusCode ∧ statusCode < 600) ∨
          statusCode ∈ opts.RetryOnStatusCodes) := by
  unfold ShouldRetry ShouldRetryStatus
  split_ifs with h1 h2 h3 h4 <;> simp_all

/-- CircuitBreakerState, from domain/models/retry.go. -/
inductive CircuitBreakerState where
  | CircuitBreakerClosed
  | CircuitBreakerOpen
  | CircuitBreakerHalfOpen
deriving Repr, DecidableEq

export CircuitBreakerState (CircuitBreakerClosed CircuitBreakerOpen CircuitBreakerHalfOpen)

/-- circuitState, from infrastructure/circuit_breaker.go: the per-endpoint record. -/
structure circuitState where
  state : CircuitBreakerState
  failureCount : Int
  lastFailureTime : Int
  openedAt : Int
  halfOpenSuccessCount : Int
  halfOpenAttempts : Int
deriving Repr, DecidableEq

/-- freshClosed is the Go zero-value record with the closed state set, as built
by CanAttempt and RecordFailure for an unseen key. -/
def freshClosed : circuitState :=
  { state := CircuitBreakerClosed, failureCount := 0, lastFailureTime := 0,
    openedAt := 0, halfOpenSuccessCount := 0, halfOpenAttempts := 0 }

/-- CircuitBreaker, from infrastructure/circuit_breaker.go: the key to record
map together with the configuration. -/
structure CircuitBreaker where
  circuits : String → Option circuitState
  threshold : Int
  timeout : Int
  halfOpenRequests : Int

/-- updateMap stores a record (or none) under a key. -/
def updateMap (m : String → Option circuitState) (k : String) (v : Option circuitState) :
    String → Option circuitState :=
  fun x => if x = k then v else m x

/-- setCircuit persists a record for an endpoint, as the Go code mutates the
record through its pointer inside the map. -/
def setCircuit (cb : CircuitBreaker) (endpoint : String) (circuit : circuitState) :
    CircuitBreaker :=
  { cb with circuits := updateMap cb.circuits endpoint (some circuit) }

/-- IsOpen, from infrastructure/circuit_breaker.go: pure query; an open record
whose timeout has elapsed reports false (would allow the half-open move). -/
def IsOpen (cb : CircuitBreaker) (endpoint : String) (now : Int) : Bool :=
  match cb.circuits endpoint with
  | none => false
  | some circuit =>
    if circuit.state = CircuitBreakerOpen then
      if cb.timeout ≤ now - circuit.openedAt then false else true
    else false

/-- canAttemptHalfOpenGate is the tail of CanAttempt after the open-state
handling: a half-open record is limited to halfOpenRequests attempts, any
other state passes; the (possibly transitioned) record is persisted. -/
def canAttemptHalfOpenGate (cb : CircuitBreaker) (endpoint : String) (circuit : circuitState) :
    Bool × CircuitBreaker :=
  if circuit.state = CircuitBreakerHalfOpen then
    if cb.halfOpenRequests ≤ circuit.halfOpenAttempts then
      (false, setCircuit cb endpoint circuit)
    else
      (true, setCircuit cb endpoint
        { circuit with halfOpenAttempts := circuit.halfOpenAttempts + 1 })
  else (true, setCircuit cb endpoint circuit)

/-- CanAttempt, from infrastructure/circuit_breaker.go: creates a closed record
for an unseen key and permits; denies while open before the timeout; on an
elapsed timeout transitions to half-open with both half-open counters reset
and falls through to the half-open budget check. -/
def CanAttempt (cb : CircuitBreaker) (endpoint : String) (now : Int) : Bool × CircuitBreaker :=
  match cb.circuits endpoint with
  | none => (true, setCircuit cb endpoint freshClosed)
  | some circuit =>
    if circuit.state = CircuitBreakerOpen then
      if cb.timeout ≤ now - circuit.openedAt then
        canAttemptHalfOpenGate cb endpoint
          { circuit with state := CircuitBreakerHalfOpen, halfOpenAttempts := 0, halfOpenSuccessCount := 0 }
      else (false, cb)
    else canAttemptHalfOpenGate cb endpoint circuit

/-- RecordSuccess, from infrastructure/circuit_breaker.go: no record, no
change; half-open increments the success count and closes (resetting
failureCount) once it reaches halfOpenRequests; closed resets failureCount. -/
def RecordSuccess (cb : CircuitBreaker) (endpoint : String) : CircuitBreaker :=
  match cb.circuits endpoint with
  | none => cb
  | some circuit =>
    if circuit.state = CircuitBreakerHalfOpen then
      let circuit := { circuit with halfOpenSuccessCount := circuit.halfOpenSuccessCount + 1 }
      let circuit :=
        if cb.halfOpenRequests ≤ circuit.halfOpenSuccessCount then
          { circuit with state := CircuitBreakerClosed, failureCount := 0 }
        else circuit
      setCircuit cb endpoint circuit
    else if circuit.state = CircuitBreakerClosed then
      setCircuit cb endpoint { circuit with failureCount := 0 }
    else cb

/-- RecordFailure, from infrastructure/circuit_breaker.go: creates a closed
record for an unseen key, increments failureCount and stamps lastFailureTime,
opens a closed record at the threshold, and reopens a half-open record
immediately with the half-open counters reset. -/
def RecordFailure (cb : CircuitBreaker) (endpoint : String) (now : Int) : CircuitBreaker :=
  let circuit := (cb.circuits endpoint).getD freshClosed
  let circuit := { circuit with failureCount := circuit.failureCount + 1, lastFailureTime := now }
  let circuit :=
    if circuit.state = CircuitBreakerClosed ∧ cb.threshold ≤ circuit.failureCount then
      { circuit with state := CircuitBreakerOpen, openedAt := now }
    else circuit
  let circuit :=
    if circuit.state = CircuitBreakerHalfOpen then
      { circuit with state := CircuitBreakerOpen, openedAt := now, halfOpenAttempts := 0, halfOpenSuccessCount := 0 }
    else circuit
  setCircuit cb endpoint circuit

/-- GetState, from infrastructure/circuit_breaker.go: pure query, unseen keys
read as closed. -/
def GetState (cb : CircuitBreaker) (endpoint : String) : CircuitBreakerState :=
  match cb.circuits endpoint with
  | none => CircuitBreakerClosed
  | some circuit => circuit.state

/-- Reset, from infrastructure/circuit_breaker.go: deletes the record of one
endpoint. -/
def Reset (cb : CircuitBreaker) (endpoint : String) : CircuitBreaker :=
  { cb with circuits := updateMap cb.circuits endpoint none }

/-- ResetAll, from infrastructure/circuit_breaker.go: replaces the map with an
empty one. -/
def ResetAll (cb : CircuitBreaker) : CircuitBreaker :=
  { cb with circuits := fun _ => none }

/-- canAttemptRun folds CanAttempt over a list of call times and counts the
permits granted. -/
def canAttemptRun (cb : CircuitBreaker) (endpoint : String) : List Int → Nat
  | [] => 0
  | now :: rest =>
    let r := CanAttempt cb endpoint now
    (if r.1 then 1 else 0) + canAttemptRun r.2 endpoint rest

/-- setCircuitTwice collapses two writes to the same endpoint. -/
lemma setCircuitTwice (cb : CircuitBreaker) (endpoint : String) (a b : circuitState) :
    setCircuit (setCircuit cb endpoint a) endpoint b = setCircuit cb endpoint b := by
  simp only [setCircuit, updateMap]
  congr 1
  funext x
  simp only [updateMap]
  split_ifs <;> rfl

/-- cbClosedEx: one closed record at key a with two failures, threshold 3,
timeout 100, one half-open trial. -/
def cbClosedEx : CircuitBreaker :=
  { circuits := fun k => if k = "a" then
      some { state := CircuitBreakerClosed, failureCount := 2, lastFailureTime := 0,
             openedAt := 0, halfOpenSuccessCount := 0, halfOpenAttempts := 0 }
    else none,
    threshold := 3, timeout := 100, halfOpenRequests := 1 }

/-- cbOpenEx: one open record at key a, opened at time 0, timeout 100,
two half-open trials. -/
def cbOpenEx : CircuitBreaker :=
  { circuits := fun k => if k = "a" then
      some { state := CircuitBreakerOpen, failureCount := 3, lastFailureTime := 0,
             openedAt := 0, halfOpenSuccessCount := 0, halfOpenAttempts := 0 }
    else none,
    threshold := 3, timeout := 100, halfOpenRequests := 2 }

/-- cbHalfEx: one half-open record at key a with no attempts yet, two
half-open trials allowed. -/
def cbHalfEx : CircuitBreaker :=
  { circuits := fun k => if k = "a" then
      some { state := CircuitBreakerHalfOpen, failureCount := 3, lastFailureTime := 0,
             openedAt := 0, halfOpenSuccessCount := 0, halfOpenAttempts := 0 }
    else none,
    threshold := 3, timeout := 100, halfOpenRequests := 2 }

/-- cbHalfZeroEx: an open, timeout-elapsed record at key a in a breaker
configured with zero half-open trials. -/
def cbHalfZeroEx : CircuitBreaker :=
  { circuits := fun k => if k = "a" then
      some { state := CircuitBreakerOpen, failureCount := 3, lastFailureTime := 0,
             openedAt := 0, halfOpenSuccessCount := 0, halfOpenAttempts := 0 }
    else none,
    threshold := 3, timeout := 10, halfOpenRequests := 0 }

/-- cbEmptyEx: a breaker with no records. -/
def cbEmptyEx : CircuitBreaker :=
  { circuits := fun _ => none, threshold := 3, timeout := 100, halfOpenRequests := 1 }

/-- C1: a closed record has its failureCount incremented by RecordFailure and
its lastFailureTime stamped; it transitions to open with openedAt set to the
current time exactly when the incremented count reaches the threshold; and
while a record is open before the timeout has elapsed, CanAttempt denies. -/
theorem C1_closed_failures_open_and_gate
    (cb : CircuitBreaker) (endpoint : String) (c : circuitState) (now : Int)
    (hrec : cb.circuits endpoint = some c) :
    (c.state = CircuitBreakerClosed →
      (RecordFailure cb endpoint now).circuits endpoint = some
        { state := if cb.threshold ≤ c.failureCount + 1 then CircuitBreakerOpen
                   else CircuitBreakerClosed,
          failureCount := c.failureCount + 1,
          lastFailureTime := now,
          openedAt := if cb.threshold ≤ c.failureCount + 1 then now else c.openedAt,
          halfOpenSuccessCount := c.halfOpenSuccessCount,
          halfOpenAttempts := c.halfOpenAttempts }) ∧
    (c.state = CircuitBreakerOpen → now - c.openedAt < cb.timeout →
      (CanAttempt cb endpoint now).1 = false) := by
  constructor
  · intro hs
    simp only [RecordFailure, hrec, Option.getD_some, hs, setCircuit, updateMap]
    split_ifs with h1 h2 h3 <;> simp_all
  · intro hs ht
    have hne : ¬ (cb.timeout ≤ now - c.openedAt) := by omega
    simp [CanAttempt, hrec, hs, hne]

/-- Witness for C1: in cbClosedEx the record at key a holds two failures with
threshold 3, so a third failure at time 50 opens the circuit at time 50. -/
theorem C1_closed_failures_open_and_gate_witness :
    (RecordFailure cbClosedEx "a" 50).circuits "a" = some
      { state := if cbClosedEx.threshold ≤ 2 + 1 then CircuitBreakerOpen
                 else CircuitBreakerClosed,
        failureCount := 2 + 1,
        lastFailureTime := 50,
        openedAt := if cbClosedEx.threshold ≤ 2 + 1 then 50 else 0,
        halfOpenSuccessCount := 0,
        halfOpenAttempts := 0 } :=
  (C1_closed_failures_open_and_gate cbClosedEx "a" _ 50 rfl).1 rfl

/-- C10: RecordFailure on an open record only increments failureCount and
stamps lastFailureTime; the state stays open and openedAt is unchanged. -/
theorem C10_recordFailure_open_frame
    (cb : CircuitBreaker) (endpoint : String) (c : circuitState) (now : Int)
    (hrec : cb.circuits endpoint = some c) (hs : c.state = CircuitBreakerOpen) :
    (RecordFailure cb endpoint now).circuits endpoint =
      some { c with failureCount := c.failureCount + 1, lastFailureTime := now } := by
  simp only [RecordFailure, hrec, Option.getD_some, setCircuit, updateMap]
  simp [hs]

/-- Witness for C10: a failure recorded at time 50 against the open record of
cbOpenEx leaves it open with openedAt still 0. -/
theorem C10_recordFailure_open_frame_witness :
    (RecordFailure cbOpenEx "a" 50).circuits "a" =
      some { state := CircuitBreakerOpen, failureCount := 3 + 1, lastFailureTime := 50,
             openedAt := 0, halfOpenSuccessCount := 0, halfOpenAttempts := 0 } :=
  C10_recordFailure_open_frame cbOpenEx "a" _ 50 rfl rfl

/-- C9 (amended): for an open record whose timeout has elapsed, GetState still
answers open (the state query makes no time-based transition), while IsOpen
answers false and, provided halfOpenRequests is positive, CanAttempt permits
the attempt. -/
theorem C9_getState_stays_open
    (cb : CircuitBreaker) (endpoint : String) (c : circuitState) (now : Int)
    (hrec : cb.circuits endpoint = some c) (hs : c.state = CircuitBreakerOpen)
    (ht : cb.timeout ≤ now - c.openedAt) (hpos : 0 < cb.halfOpenRequests) :
    GetState cb endpoint = CircuitBreakerOpen ∧
    IsOpen cb endpoint now = false ∧
    (CanAttempt cb endpoint now).1 = true := by
  refine ⟨?_, ?_, ?_⟩
  · simp [GetState, hrec, hs]
  · simp [IsOpen, hrec, hs, ht]
  · have h0 : ¬ (cb.halfOpenRequests ≤ 0) := by omega
    simp [CanAttempt, hrec, hs, ht, canAttemptHalfOpenGate, h0]

/-- Witness for C9: cbOpenEx at time 150 (timeout 100 elapsed, two half-open
trials allowed). -/
theorem C9_getState_stays_open_witness :
    GetState cbOpenEx "a" = CircuitBreakerOpen ∧
    IsOpen cbOpenEx "a" 150 = false ∧
    (CanAttempt cbOpenEx "a" 150).1 = true :=
  C9_getState_stays_open cbOpenEx "a" _ 150 rfl rfl (by decide) (by decide)

/-- Counterexample for C9 as stated: with zero configured half-open trials
(cbHalfZeroEx, open since time 0, timeout 10, queried at time 20) GetState
answers open and IsOpen answers false, yet CanAttempt denies the attempt. -/
theorem C9_canAttempt_denies_counterexample :
    GetState cbHalfZeroEx "a" = CircuitBreakerOpen ∧
    IsOpen cbHalfZeroEx "a" 20 = false ∧
    ¬ ((CanAttempt cbHalfZeroEx "a" 20).1 = true) := by
  refine ⟨rfl, rfl, ?_⟩
  decide

/-- canAttemptRunBound: from a half-open record, a run of CanAttempt calls
grants at most the remaining trial budget. -/
lemma canAttemptRunBound (nows : List Int) :
    ∀ (cb : CircuitBreaker) (endpoint : String) (c : circuitState),
      cb.circuits endpoint = some c → c.state = CircuitBreakerHalfOpen →
      canAttemptRun cb endpoint nows ≤ (cb.halfOpenRequests - c.halfOpenAttempts).toNat := by
  induction nows with
  | nil =>
    intro cb endpoint c _ _
    simp [canAttemptRun]
  | cons now rest ih =>
    intro cb endpoint c hrec hs
    by_cases hle : cb.halfOpenRequests ≤ c.halfOpenAttempts
    · have hCA : CanAttempt cb endpoint now = (false, setCircuit cb endpoint c) := by
        simp [CanAttempt, hrec, hs, canAttemptHalfOpenGate, hle]
      have hrec2 : (setCircuit cb endpoint c).circuits endpoint = some c := by
        simp [setCircuit, updateMap]
      have hb := ih (setCircuit cb endpoint c) endpoint c hrec2 hs
      simp only [setCircuit] at hb
      simp [canAttemptRun, hCA, setCircuit]
      omega
    · have hCA : CanAttempt cb endpoint now =
          (true, setCircuit cb endpoint { c with halfOpenAttempts := c.halfOpenAttempts + 1 }) := by
        simp [CanAttempt, hrec, hs, canAttemptHalfOpenGate, hle]
      have hrec2 : (setCircuit cb endpoint
            { c with halfOpenAttempts := c.halfOpenAttempts + 1 }).circuits endpoint =
          some { c with halfOpenAttempts := c.halfOpenAttempts + 1 } := by
        simp [setCircuit, updateMap]
      have hb := ih _ endpoint _ hrec2 (by simpa using hs)
      simp only [setCircuit] at hb
      simp only [canAttemptRun, hCA, setCircuit]
      simp at hb ⊢
      omega

/-- C3: an open record whose timeout has elapsed is moved by CanAttempt into
half-open with both half-open counters reset, and is immediately subject to
the half-open budget (so the permit and attempt count of the same call follow
the reset counters); within a half-open window CanAttempt permits exactly
while halfOpenAttempts is below halfOpenRequests, incrementing it on each
permit, and a whole run of calls started on a fresh window grants at most
halfOpenRequests permits. -/
theorem C3_halfOpen_budget
    (cb : CircuitBreaker) (endpoint : String) (c : circuitState) (now : Int)
    (hrec : cb.circuits endpoint = some c) (hs : c.state = CircuitBreakerOpen)
    (ht : cb.timeout ≤ now - c.openedAt) :
    ((CanAttempt cb endpoint now).2.circuits endpoint = some
        { c with state := CircuitBreakerHalfOpen, halfOpenSuccessCount := 0, halfOpenAttempts := if 0 < cb.halfOpenRequests then 1 else 0 } ∧
      ((CanAttempt cb endpoint now).1 = true ↔ 0 < cb.halfOpenRequests)) ∧
    (∀ (cb2 : CircuitBreaker) (e2 : String) (c2 : circuitState) (n2 : Int),
      cb2.circuits e2 = some c2 → c2.state = CircuitBreakerHalfOpen →
      (((CanAttempt cb2 e2 n2).1 = true ↔ c2.halfOpenAttempts < cb2.halfOpenRequests) ∧
        (CanAttempt cb2 e2 n2).2.circuits e2 = some
          { c2 with halfOpenAttempts := if c2.halfOpenAttempts < cb2.halfOpenRequests then c2.halfOpenAttempts + 1 else c2.halfOpenAttempts })) ∧
    (∀ (cb2 : CircuitBreaker) (e2 : String) (c2 : circuitState),
      cb2.circuits e2 = some c2 → c2.state = CircuitBreakerHalfOpen →
      c2.halfOpenAttempts = 0 →
      ∀ nows : List Int, canAttemptRun cb2 e2 nows ≤ cb2.halfOpenRequests.toNat) := by
  refine ⟨⟨?_, ?_⟩, ?_, ?_⟩
  · by_cases hp : 0 < cb.halfOpenRequests
    · have h0 : ¬ (cb.halfOpenRequests ≤ 0) := by omega
      simp [CanAttempt, hrec, hs, ht, canAttemptHalfOpenGate, h0, hp, setCircuit, updateMap]
    · have h0 : cb.halfOpenRequests ≤ 0 := by omega
      simp [CanAttempt, hrec, hs, ht, canAttemptHalfOpenGate, h0, hp, setCircuit, updateMap]
  · by_cases hp : 0 < cb.halfOpenRequests
    · have h0 : ¬ (cb.halfOpenRequests ≤ 0) := by omega
      simp [CanAttempt, hrec, hs, ht, canAttemptHalfOpenGate, h0, hp]
    · have h0 : cb.halfOpenRequests ≤ 0 := by omega
      simp [CanAttempt, hrec, hs, ht, canAttemptHalfOpenGate, h0, hp]
  · intro cb2 e2 c2 n2 h2 hs2
    by_cases hlt : c2.halfOpenAttempts < cb2.halfOpenRequests
    · have h0 : ¬ (cb2.halfOpenRequests ≤ c2.halfOpenAttempts) := by omega
      simp [CanAttempt, h2, hs2, canAttemptHalfOpenGate, h0, hlt, setCircuit, updateMap]
    · have h0 : cb2.halfOpenRequests ≤ c2.halfOpenAttempts := by omega
      simp [CanAttempt, h2, hs2, canAttemptHalfOpenGate, h0, hlt, setCircuit, updateMap]
      rw [← hs2]
  · intro cb2 e2 c2 h2 hs2 hz nows
    have := canAttemptRunBound nows cb2 e2 c2 h2 hs2
    rw [hz] at this
    simpa using this

/-- Witness for C3: cbOpenEx (open since time 0, timeout 100, two trials)
queried at time 150 moves to half-open, grants the permit and records one
attempt. -/
theorem C3_halfOpen_budget_witness :
    (CanAttempt cbOpenEx "a" 150).2.circuits "a" = some
      { state := CircuitBreakerHalfOpen, failureCount := 3, lastFailureTime := 0,
        openedAt := 0, halfOpenSuccessCount := 0,
        halfOpenAttempts := if 0 < cbOpenEx.halfOpenRequests then 1 else 0 } ∧
    ((CanAttempt cbOpenEx "a" 150).1 = true ↔ 0 < cbOpenEx.halfOpenRequests) :=
  (C3_halfOpen_budget cbOpenEx "a" _ 150 rfl rfl (by decide)).1

/-- C4: RecordSuccess on a half-open record increments halfOpenSuccessCount
and closes the circuit (resetting failureCount) exactly when the incremented
count reaches halfOpenRequests; RecordFailure on a half-open record reopens
the circuit at the current time with both half-open counters reset. -/
theorem C4_halfOpen_success_failure
    (cb : CircuitBreaker) (endpoint : String) (c : circuitState) (now : Int)
    (hrec : cb.circuits endpoint = some c) (hs : c.state = CircuitBreakerHalfOpen) :
    ((RecordSuccess cb endpoint).circuits endpoint = some
        (if cb.halfOpenRequests ≤ c.halfOpenSuccessCount + 1 then
          { c with state := CircuitBreakerClosed, failureCount := 0, halfOpenSuccessCount := c.halfOpenSuccessCount + 1 }
        else { c with halfOpenSuccessCount := c.halfOpenSuccessCount + 1 })) ∧
    ((RecordFailure cb endpoint now).circuits endpoint = some
        { c with state := CircuitBreakerOpen, openedAt := now, failureCount := c.failureCount + 1, lastFailureTime := now, halfOpenAttempts := 0, halfOpenSuccessCount := 0 }) := by
  constructor
  · simp only [RecordSuccess, hrec, hs, setCircuit, updateMap]
    split_ifs <;> simp_all [updateMap]
  · simp only [RecordFailure, hrec, Option.getD_some, setCircuit, updateMap]
    simp [hs]

/-- Witness for C4: in cbHalfEx (two required trials, no successes yet) one
success keeps the record half-open with one recorded success. -/
theorem C4_halfOpen_success_failure_witness :
    (RecordSuccess cbHalfEx "a").circuits "a" = some
      (if cbHalfEx.halfOpenRequests ≤ 0 + 1 then
        { state := CircuitBreakerClosed, failureCount := 0, lastFailureTime := 0,
          openedAt := 0, halfOpenSuccessCount := 0 + 1, halfOpenAttempts := 0 }
      else { state := CircuitBreakerHalfOpen, failureCount := 3, lastFailureTime := 0,
             openedAt := 0, halfOpenSuccessCount := 0 + 1, halfOpenAttempts := 0 }) :=
  (C4_halfOpen_success_failure cbHalfEx "a" _ 0 rfl rfl).1

/-- C8: RecordSuccess on an unseen key changes nothing; RecordFailure on an
unseen key behaves as if a fresh closed record had been created first; Reset
deletes the record of a key, after which GetState reads closed and CanAttempt
permits, and ResetAll deletes every record. -/
theorem C8_unseen_and_reset (cb : CircuitBreaker) (endpoint : String) (now : Int) :
    (cb.circuits endpoint = none → RecordSuccess cb endpoint = cb) ∧
    (cb.circuits endpoint = none →
      RecordFailure cb endpoint now =
        RecordFailure (setCircuit cb endpoint freshClosed) endpoint now) ∧
    ((Reset cb endpoint).circuits endpoint = none ∧
      GetState (Reset cb endpoint) endpoint = CircuitBreakerClosed ∧
      (CanAttempt (Reset cb endpoint) endpoint now).1 = true ∧
      (ResetAll cb).circuits endpoint = none) := by
  refine ⟨?_, ?_, ?_, ?_, ?_, ?_⟩
  · intro h
    simp [RecordSuccess, h]
  · intro h
    have hset : (setCircuit cb endpoint freshClosed).circuits endpoint = some freshClosed := by
      simp [setCircuit, updateMap]
    unfold RecordFailure
    rw [h, hset, Option.getD_none, Option.getD_some]
    exact (setCircuitTwice cb endpoint freshClosed _).symm
  · simp [Reset, updateMap]
  · simp [GetState, Reset, updateMap]
  · simp [CanAttempt, Reset, updateMap]
  · rfl

/-- Witness for C8: the empty breaker is untouched by RecordSuccess. -/
theorem C8_unseen_and_reset_witness :
    RecordSuccess cbEmptyEx "a" = cbEmptyEx :=
  (C8_unseen_and_reset cbEmptyEx "a" 0).1 rfl

/-- jitterFractionEffectivePos: the effective fraction is positive. -/
lemma jitterFractionEffectivePos (jf : ℚ) : 0 < jitterFractionEffective jf := by
  unfold jitterFractionEffective
  split_ifs with h1 h2
  · norm_num
  · norm_num
  · exact not_le.mp h1

/-- jitterFractionEffectiveLeOne: the effective fraction is at most one. -/
lemma jitterFractionEffectiveLeOne (jf : ℚ) : jitterFractionEffective jf ≤ 1 := by
  unfold jitterFractionEffective
  split_ifs with h1 h2
  · norm_num
  · exact le_refl 1
  · exact le_of_not_lt h2

/-- optsJitterHalf: jitter enabled with a configured fraction of one half. -/
def optsJitterHalf : RetryOptions :=
  { MaxRetries := 3, InitialDelay := 100, MaxDelay := 30000,
    Backoff := BackoffExponential, Jitter := true, JitterFraction := 1 / 2,
    RetryOnStatusCodes := [] }

/-- Counterexample for C6 as stated: with delay 5 ns, configured fraction 1/2
and random draw 1/16, the jittered value is 45/16 ns, which truncates to 2 ns,
strictly below the claimed lower bound delay * (1 - fraction) = 5/2 ns. -/
theorem C6_truncation_counterexample :
    applyJitter optsJitterHalf 5 (1 / 16) = 2 ∧
    ((applyJitter optsJitterHalf 5 (1 / 16) : Int) : ℚ) <
      (5 : ℚ) * (1 - optsJitterHalf.JitterFraction) := by
  have hf : jitterFractionEffective optsJitterHalf.JitterFraction = 1 / 2 := by
    norm_num [jitterFractionEffective, optsJitterHalf]
  have h : applyJitter optsJitterHalf 5 (1 / 16) = 2 := by
    show (if ((5 : Int) : ℚ) +
            ((1 : ℚ) / 16 * 2 *
                (((5 : Int) : ℚ) * jitterFractionEffective optsJitterHalf.JitterFraction) -
              ((5 : Int) : ℚ) * jitterFractionEffective optsJitterHalf.JitterFraction) < 0
          then (0 : Int)
          else ⌊((5 : Int) : ℚ) +
            ((1 : ℚ) / 16 * 2 *
                (((5 : Int) : ℚ) * jitterFractionEffective optsJitterHalf.JitterFraction) -
              ((5 : Int) : ℚ) * jitterFractionEffective optsJitterHalf.JitterFraction)⌋) = 2
    rw [hf]
    norm_num
  refine ⟨h, ?_⟩
  rw [h]
  norm_num [optsJitterHalf]

/-- C6 (amended): with jitter enabled, for a non-negative delay and a random
draw u in [0,1), the result is never negative, is at most
delay * (1 + fraction), and is at least the floor of delay * (1 - fraction),
where fraction is the configured fraction replaced by 0.3 when non-positive
and clamped to 1 when above 1; the truncation to whole nanoseconds can land
up to one nanosecond below the exact bound delay * (1 - fraction). -/
theorem C6_jitter_bounds (opts : RetryOptions) (delay : Int) (u : ℚ)
    (hd : 0 ≤ delay) (hu0 : 0 ≤ u) (hu1 : u < 1) :
    0 ≤ applyJitter opts delay u ∧
    ⌊(delay : ℚ) * (1 - jitterFractionEffective opts.JitterFraction)⌋ ≤
      applyJitter opts delay u ∧
    ((applyJitter opts delay u : Int) : ℚ) ≤
      (delay : ℚ) * (1 + jitterFractionEffective opts.JitterFraction) := by
  have hf0 : 0 < jitterFractionEffective opts.JitterFraction := jitterFractionEffectivePos _
  have hf1 : jitterFractionEffective opts.JitterFraction ≤ 1 := jitterFractionEffectiveLeOne _
  have hdq : (0 : ℚ) ≤ (delay : ℚ) := by exact_mod_cast hd
  set f : ℚ := jitterFractionEffective opts.JitterFraction with hfdef
  set nd : ℚ :=
    (delay : ℚ) + (u * 2 * ((delay : ℚ) * f) - (delay : ℚ) * f) with hnddef
  have hlow : (delay : ℚ) * (1 - f) ≤ nd := by
    have haux : 0 ≤ u * ((delay : ℚ) * f) := mul_nonneg hu0 (mul_nonneg hdq hf0.le)
    rw [hnddef]; nlinarith
  have hhigh : nd ≤ (delay : ℚ) * (1 + f) := by
    have haux : 0 ≤ ((delay : ℚ) * f) * (1 - u) :=
      mul_nonneg (mul_nonneg hdq hf0.le) (by linarith)
    rw [hnddef]; nlinarith
  have hnn : 0 ≤ nd := le_trans (mul_nonneg hdq (by linarith)) hlow
  have happ : applyJitter opts delay u = ⌊nd⌋ := by
    show (if nd < 0 then (0 : Int) else ⌊nd⌋) = ⌊nd⌋
    rw [if_neg (not_lt.mpr hnn)]
  refine ⟨?_, ?_, ?_⟩
  · rw [happ]
    exact Int.floor_nonneg.mpr hnn
  · rw [happ]
    exact Int.floor_le_floor hlow
  · rw [happ]
    exact le_trans (Int.floor_le nd) hhigh

/-- Witness for C6 at delay 4, fraction 1/2, u = 1/2: the jitter cancels and
the result 4 sits inside the amended interval. -/
theorem C6_jitter_bounds_witness :
    0 ≤ applyJitter optsJitterHalf 4 (1 / 2) ∧
    ⌊(4 : ℚ) * (1 - jitterFractionEffective optsJitterHalf.JitterFraction)⌋ ≤
      applyJitter optsJitterHalf 4 (1 / 2) ∧
    ((applyJitter optsJitterHalf 4 (1 / 2) : Int) : ℚ) ≤
      (4 : ℚ) * (1 + jitterFractionEffective optsJitterHalf.JitterFraction) :=
  C6_jitter_bounds optsJitterHalf 4 (1 / 2) (by norm_num) (by norm_num) (by norm_num)

end GoFetch
